import Mathlib

/-!
Verification development for `generate_workday_commits.py`.

The script is a single-pass pipeline: expand a date range into workdays
(Mon-Fri), remove randomly sampled vacation days, synthesize commits with
random times and templated messages for each remaining day, and emit a shell
script that replays the commits.

Modelling conventions:
* Dates are represented by their proleptic-Gregorian ordinal (`Nat`), matching
  `datetime.date.toordinal` (ordinal 1 = 0001-01-01, a Monday); `pyWeekday`
  matches `date.weekday()` (Monday = 0).
* All randomness is passed in explicitly as oracle data: `random.choice(l)`
  becomes `pyChoice l i d` (an arbitrary index reduced mod the length, so the
  reachable outcomes are exactly the list elements), `random.randint(a, b)`
  becomes `pyRandint a b r = a + r % (b + 1 - a)`, and `random.sample` results
  are oracle-supplied lists constrained by validity hypotheses (distinct
  elements drawn from the population, of the requested size).
* Python `int` arithmetic in `main` is modelled with `Int`; `random.sample`
  raising on a negative or oversized request is modelled by `Option`.
-/

set_option linter.unusedVariables false

namespace WorkdayCommits

/-! ### Characters used in generated text

Single quotes and braces are built via `Char.ofNat` so that the generated
shell/template strings can be assembled and analysed character by character.
-/

def sqChar : Char := Char.ofNat 39

def sqStr : String := String.singleton sqChar

def lbrace : Char := Char.ofNat 123

def rbrace : Char := Char.ofNat 125

/-! ### Calendar arithmetic (models `datetime.date`) -/

def isLeapYear (y : Nat) : Bool := y % 4 == 0 && (y % 100 != 0 || y % 400 == 0)

def daysBeforeMonthTable : List Nat :=
  [0, 31, 59, 90, 120, 151, 181, 212, 243, 273, 304, 334]

def daysBeforeMonth (y m : Nat) : Nat :=
  daysBeforeMonthTable.getD (m - 1) 0 + (if 2 < m && isLeapYear y then 1 else 0)

/-- `datetime.date(y, m, d).toordinal()`: days since 0000-12-31 in the
proleptic Gregorian calendar. -/
def dateOrdinal (y m d : Nat) : Nat :=
  365 * (y - 1) + (y - 1) / 4 - (y - 1) / 100 + (y - 1) / 400 + daysBeforeMonth y m + d

/-- `date.weekday()`: Monday = 0 .. Sunday = 6.  Ordinal 1 is a Monday. -/
def pyWeekday (d : Nat) : Nat := (d + 6) % 7

def monthLengths (y : Nat) : List Nat :=
  [31, if isLeapYear y then 29 else 28, 31, 30, 31, 30, 31, 31, 30, 31, 30, 31]

def findMonthAux : Nat → Nat → List Nat → Nat × Nat
  | m, rest, [] => (m, rest + 1)
  | m, rest, len :: ls =>
    if rest < len then (m, rest + 1) else findMonthAux (m + 1) (rest - len) ls

/-- Inverse of `dateOrdinal` (`datetime.date.fromordinal`), used only to render
`strftime`-style timestamp strings. -/
def ordToDate (n0 : Nat) : Nat × Nat × Nat :=
  let n := n0 - 1
  let n400 := n / 146097
  let r400 := n % 146097
  let n100 := min 3 (r400 / 36524)
  let r100 := r400 - n100 * 36524
  let n4 := r100 / 1461
  let r4 := r100 % 1461
  let n1 := min 3 (r4 / 365)
  let doy := r4 - n1 * 365
  let y := 400 * n400 + 100 * n100 + 4 * n4 + n1 + 1
  let md := findMonthAux 1 doy (monthLengths y)
  (y, md.1, md.2)

/-- `is_workday(date)`: weekday index below 5 (Monday=0, Friday=4). -/
def is_workday (d : Nat) : Bool := pyWeekday d < 5

/-- The `while current < end_date` loop of `main`, collecting workdays.
`fuel` is the number of remaining loop iterations (one per day). -/
def collectWorkdays : Nat → Nat → List Nat
  | _, 0 => []
  | cur, n + 1 =>
    if is_workday cur then cur :: collectWorkdays (cur + 1) n
    else collectWorkdays (cur + 1) n

/-- All workdays in `[s, e)` (`e` exclusive), as in `main`. -/
def rawWorkdays (s e : Nat) : List Nat := collectWorkdays s (e - s)

/-! ### Randomness oracles -/

/-- `random.choice(l)`: an arbitrary element of `l`, selected by an oracle
index reduced mod the length (so exactly the elements of `l` are reachable). -/
def pyChoice {α : Type} (l : List α) (i : Nat) (d : α) : α := l.getD (i % l.length) d

/-- `random.randint(a, b)` (inclusive bounds, requires `a ≤ b` in Python;
totalized to `a` when `b < a`). -/
def pyRandint (a b r : Nat) : Nat := if b < a then a else a + r % (b + 1 - a)

/-! ### Message templates (the static tables of the script) -/

def COMPONENTS : List String :=
  ["user authentication", "payment gateway", "dashboard API", "data pipeline",
   "notification service", "user profile", "search functionality", "reporting module",
   "cache layer", "database migrations", "API endpoints", "frontend components",
   "background jobs", "webhook handlers", "error logging", "metrics collection",
   "config management", "security middleware", "rate limiting", "audit trail"]

def ISSUES : List String :=
  ["memory leak", "race condition", "null pointer", "authentication timeout",
   "database deadlock", "race condition", "validation error", "indexing issue",
   "session handling", "token refresh", "data sync", "cache invalidation"]

def SYMPTOMS : List String :=
  ["slow response times", "intermittent failures", "login errors", "data inconsistency",
   "timeout issues", "crashes", "incorrect totals", "missing notifications"]

def PRS : List String :=
  ["#1423", "#1425", "#1428", "#1430", "#1432",
   "user-auth-refactor", "payment-fix", "dashboard-v2", "api-cleanup"]

def FEATURES : List String :=
  ["new onboarding flow", "analytics dashboard", "bulk export", "real-time updates",
   "mobile optimization", "accessibility improvements", "dark mode", "SSO integration",
   "audit logging", "rate limiting", "caching layer", "API v2"]

/-- The `COMMIT_MESSAGES` dict, as a lookup from category name to template
list (unknown keys give `[]`; only the six fixed keys are ever used). -/
def COMMIT_MESSAGES (category : String) : List String :=
  if category = "morning" then
    ["Start day: review PR queue and plan tasks",
     "Daily standup notes and sprint planning",
     "Check overnight builds and CI status",
     "Morning sync: align on priorities",
     "Review emails and update task board"]
  else if category = "development" then
    ["Implement feature: {component}",
     "Refactor {component} for better performance",
     "Add tests for {component}",
     "Update {component} documentation",
     "Fix edge case in {component}",
     "Optimize {component} query performance",
     "Integrate {component} with API",
     "Add validation to {component}"]
  else if category = "bugfix" then
    ["Fix bug: {issue} causing {symptom}",
     "Hotfix: resolve {issue} in production",
     "Debug and fix {issue}",
     "Address code review feedback on {issue}",
     "Fix regression in {issue}"]
  else if category = "review" then
    ["Code review: {pr}",
     "Review and approve PR: {pr}",
     "Leave feedback on {pr}",
     "Pair programming session on {feature}",
     "Mentoring session: review {feature}"]
  else if category = "planning" then
    ["Update sprint backlog",
     "Write technical spec for {feature}",
     "Estimate tasks for next sprint",
     "Document {feature} architecture decision",
     "Update README with {feature} instructions"]
  else if category = "endofday" then
    ["Wrap up: commit WIP on {feature}",
     "End of day: save progress on {feature}",
     "Checkpoint: {feature} progress",
     "Daily commit: {feature} updates",
     "Push EOD changes for {feature}"]
  else []

/-- The six template lists concatenated (every template the program can pick). -/
def allTemplates : List String :=
  COMMIT_MESSAGES "morning" ++ COMMIT_MESSAGES "development" ++
  COMMIT_MESSAGES "bugfix" ++ COMMIT_MESSAGES "review" ++
  COMMIT_MESSAGES "planning" ++ COMMIT_MESSAGES "endofday"

/-- Every filler value any placeholder can receive. -/
def allFillers : List String := COMPONENTS ++ ISSUES ++ SYMPTOMS ++ PRS ++ FEATURES

/-! ### `str.format` (the subset the script uses)

`formatAux env none s` scans `s`; a left brace opens a field name, the
matching right brace closes it and the field is replaced by `env name`.
The templates never contain stray braces (checked by `scanOk` below), so the
error cases Python would raise on are unreachable for the program's inputs;
they are totalized (unterminated field renders nothing, a stray right brace
is kept as a literal).
-/

def formatAux (env : String → String) : Option (List Char) → List Char → List Char
  | none, [] => []
  | none, c :: r =>
    if c = lbrace then formatAux env (some []) r else c :: formatAux env none r
  | some _, [] => []
  | some acc, c :: r =>
    if c = rbrace then (env (String.mk acc)).data ++ formatAux env none r
    else formatAux env (some (acc ++ [c])) r

def pyFormat (t : String) (env : String → String) : String :=
  String.mk (formatAux env none t.data)

/-- Well-formedness scanner: braces strictly alternate (every left brace is
closed, no stray right brace).  `inField` is the scanner state. -/
def scanOk : Bool → List Char → Bool
  | false, [] => true
  | false, c :: r =>
    if c = lbrace then scanOk true r else if c = rbrace then false else scanOk false r
  | true, [] => false
  | true, c :: r =>
    if c = rbrace then scanOk false r else if c = lbrace then false else scanOk true r

/-! ### Commit synthesis -/

/-- Per-message randomness: category choice, template choice, and the five
independent filler choices (`random.choice` on each filler list). -/
structure MsgOracle where
  cat : Nat
  tmpl : Nat
  comp : Nat
  iss : Nat
  symp : Nat
  pr : Nat
  feat : Nat

/-- The keyword arguments of `template.format(...)` in
`generate_commit_message`, as a lookup environment. -/
def fillEnv (o : MsgOracle) : String → String := fun name =>
  if name = "component" then pyChoice COMPONENTS o.comp ""
  else if name = "issue" then pyChoice ISSUES o.iss ""
  else if name = "symptom" then pyChoice SYMPTOMS o.symp ""
  else if name = "pr" then pyChoice PRS o.pr ""
  else if name = "feature" then pyChoice FEATURES o.feat ""
  else ""

/-- `generate_commit_message(hour)`: pick a category by time of day, pick a
template from that category, fill the placeholders. -/
def generate_commit_message (hour : Nat) (o : MsgOracle) : String :=
  let category :=
    if hour < 10 then "morning"
    else if hour < 12 then pyChoice ["development", "bugfix", "review"] o.cat "development"
    else if hour < 14 then pyChoice ["planning", "review"] o.cat "planning"
    else if hour < 17 then pyChoice ["development", "bugfix", "review"] o.cat "development"
    else "endofday"
  let template := pyChoice (COMMIT_MESSAGES category) o.tmpl ""
  pyFormat template (fillEnv o)

/-- `work_hours = list(range(9, 18))`. -/
def work_hours : List Nat := [9, 10, 11, 12, 13, 14, 15, 16, 17]

/-- Per-day randomness for `generate_commits_for_day`: the
`random.sample(work_hours, ...)` result, the `random.choice(work_hours)`
draws of the top-up loop, and per-commit minute/second/message draws. -/
structure DayOracle where
  sample : List Nat
  extra : Nat → Nat
  minute : Nat → Nat
  second : Nat → Nat
  msg : Nat → MsgOracle

/-- `random.sample` returns distinct elements of the population; the sample
size is `min num_commits (work_hours.length)` as requested by the code. -/
def DayOracle.valid (o : DayOracle) (n : Nat) : Prop :=
  o.sample.Nodup ∧ (∀ h ∈ o.sample, h ∈ work_hours) ∧
    o.sample.length = min n work_hours.length

/-- The hour-selection part of `generate_commits_for_day`:
`sorted(sample)`, top up with `random.choice(work_hours)` until
`num_commits` hours, truncate, and sort again. -/
def selectHours (o : DayOracle) (n : Nat) : List Nat :=
  let s := List.insertionSort (· ≤ ·) o.sample
  let s2 := s ++ (List.range (n - s.length)).map (fun j => pyChoice work_hours (o.extra j) 9)
  List.insertionSort (· ≤ ·) (s2.take n)

/-- One synthesized commit.  The code stores rendered strings; we keep the
structured fields (`day` is the date ordinal) and derive the strings below. -/
structure Commit where
  day : Nat
  hour : Nat
  minute : Nat
  second : Nat
  message : String
  deriving DecidableEq

/-- Total seconds represented by a commit timestamp; `datetime` comparison of
two timestamps (with in-range fields) is comparison of these keys. -/
def tsKey (c : Commit) : Nat := ((c.day * 24 + c.hour) * 60 + c.minute) * 60 + c.second

/-- The `for i, hour in enumerate(selected_hours)` loop body:
draw minute and second, render the message. -/
def buildCommits (day : Nat) (o : DayOracle) : Nat → List Nat → List Commit
  | _, [] => []
  | i, h :: hs =>
    { day := day, hour := h, minute := pyRandint 0 59 (o.minute i),
      second := pyRandint 0 59 (o.second i),
      message := generate_commit_message h (o.msg i) } :: buildCommits day o (i + 1) hs

/-- `generate_commits_for_day(date, num_commits, filename)` (the `filename`
parameter is unused in the source as well). -/
def generate_commits_for_day (day : Nat) (num_commits : Nat) (o : DayOracle)
    (filename : String) : List Commit :=
  buildCommits day o 0 (selectHours o num_commits)

/-! ### Timestamp strings (`strftime` calls of the script) -/

def pad2 (n : Nat) : String :=
  String.mk [Nat.digitChar (n / 10 % 10), Nat.digitChar (n % 10)]

def pad4 (n : Nat) : String :=
  String.mk [Nat.digitChar (n / 1000 % 10), Nat.digitChar (n / 100 % 10),
             Nat.digitChar (n / 10 % 10), Nat.digitChar (n % 10)]

def dateStr (d : Nat) : String :=
  pad4 (ordToDate d).1 ++ "-" ++ pad2 (ordToDate d).2.1 ++ "-" ++ pad2 (ordToDate d).2.2

/-- `commit_time.strftime("%Y-%m-%d %H:%M:%S")`. -/
def timestampStr (c : Commit) : String :=
  dateStr c.day ++ " " ++ pad2 c.hour ++ ":" ++ pad2 c.minute ++ ":" ++ pad2 c.second

/-- `commit_time.strftime("%Y-%m-%dT%H:%M:%S")`. -/
def isoTimestampStr (c : Commit) : String :=
  dateStr c.day ++ "T" ++ pad2 c.hour ++ ":" ++ pad2 c.minute ++ ":" ++ pad2 c.second

/-- `content_line = f"[{timestamp}] {message}\n"`. -/
def contentLine (c : Commit) : String :=
  "[" ++ timestampStr c ++ "] " ++ c.message ++ "\n"

/-! ### Vacation-day removal (`main`) -/

/-- Python `int()` applied to a (nonnegative) rational: truncation toward
zero.  The source computes `int(len(workdays) * 0.08)` with the double
closest to 0.08; for every workday count a `datetime` range can produce
(far below 10^12) the truncated value coincides with truncating the exact
rational `w * 8/100`, which is what we use. -/
def pyTrunc (q : ℚ) : Int := q.num.tdiv (q.den : Int)

/-- Resolution of `args.vacation_days`: a negative sentinel selects the auto
default `max(1, int(len(workdays) * 0.08))`. -/
def vacationResolve (vacArg : Int) (w : Nat) : Int :=
  if vacArg < 0 then max 1 (pyTrunc ((w : ℚ) * (8 / 100))) else vacArg

/-- The vacation-removal block of `main`.  `orc k` is the
`random.sample(workdays, k)` oracle; `random.sample` raises (modelled by
`none`) when the requested size is negative or exceeds the population. -/
def vacationStep (vacArg : Int) (orc : Nat → List Nat) (workdays : List Nat) :
    Option (List Nat) :=
  let v := vacationResolve vacArg workdays.length
  if 0 < v then
    let v2 : Int := min v ((workdays.length : Int) - 1)
    if v2 < 0 ∨ (workdays.length : Int) < v2 then none
    else
      let vl := orc v2.toNat
      some (workdays.filter (fun d => decide (d ∉ vl)))
  else some workdays

/-- Validity of the sample oracle at size `k`: `random.sample` returns `k`
distinct elements of the population. -/
def SampleOracle.valid (orc : Nat → List Nat) (pop : List Nat) (k : Nat) : Prop :=
  (orc k).Nodup ∧ (∀ d ∈ orc k, d ∈ pop) ∧ (orc k).length = k

/-- The commit-generation loop of `main`: one `randint(min, max)` count per
workday, concatenated in workday order.  The first argument of the recursion
indexes the per-day oracles. -/
def mainCommits (minC maxC : Nat) (countR : Nat → Nat) (dayR : Nat → DayOracle)
    (filename : String) : Nat → List Nat → List Commit
  | _, [] => []
  | i, wd :: rest =>
    generate_commits_for_day wd (pyRandint minC maxC (countR i)) (dayR i) filename ++
      mainCommits minC maxC countR dayR filename (i + 1) rest

/-! ### Shell-script emission (`generate_shell_script`) -/

def fileAssignLine (filename : String) : String := "FILE=\"" ++ filename ++ "\""

def touchLine : String := "touch \"$FILE\""

def headerLines (filename : String) : List String :=
  ["#!/bin/bash", "# Auto-generated commit script", "# Run this in your git repository",
   "", "set -e", "", fileAssignLine filename, "", "# Ensure file exists", touchLine, ""]

/-- Python `str.rstrip()` default whitespace set. -/
def pyIsSpace (c : Char) : Bool :=
  c = ' ' || c = '\t' || c = '\n' || c = '\r' || c = Char.ofNat 11 || c = Char.ofNat 12

def pyRstrip (s : String) : String :=
  String.mk ((s.data.reverse.dropWhile pyIsSpace).reverse)

def commentLine (c : Commit) : String := "# Commit: " ++ c.message

def echoLine (c : Commit) : String :=
  "echo " ++ sqStr ++ pyRstrip (contentLine c) ++ sqStr ++ " >> \"$FILE\""

def exportAuthorLine (c : Commit) : String :=
  "export GIT_AUTHOR_DATE=" ++ sqStr ++ isoTimestampStr c ++ sqStr

def exportCommitterLine (c : Commit) : String :=
  "export GIT_COMMITTER_DATE=" ++ sqStr ++ isoTimestampStr c ++ sqStr

def gitAddLine : String := "git add \"$FILE\""

def gitCommitLine (c : Commit) : String :=
  "git commit -m " ++ sqStr ++ c.message ++ sqStr

def trailerLines : List String :=
  ["echo " ++ sqStr ++ "All commits created successfully!" ++ sqStr,
   "git log --oneline -10"]

/-- The per-commit block appended by the `for commit in commits` loop. -/
def commitBlock (c : Commit) : List String :=
  [commentLine c, echoLine c, exportAuthorLine c, exportCommitterLine c,
   gitAddLine, gitCommitLine c, ""]

/-- The full `script_lines` list of `generate_shell_script`. -/
def scriptLines (commits : List Commit) (filename : String) : List String :=
  headerLines filename ++ (commits.map commitBlock).flatten ++ trailerLines

/-- `generate_shell_script` returns the lines joined with newlines (the
`output_path` parameter is unused in the source as well). -/
def generate_shell_script (commits : List Commit) (filename : String)
    (output_path : String) : String :=
  String.intercalate "\n" (scriptLines commits filename)

/-- The `main` pipeline from resolved start/end dates (both CLI flags given:
`end_date` is parsed then incremented by one day, making the flag value
inclusive) to the emitted script lines; `none` means an uncaught exception
before the script is written. -/
def runMain (sy sm sd ey em ed : Nat) (minC maxC : Nat) (vacArg : Int)
    (orc : Nat → List Nat) (countR : Nat → Nat) (dayR : Nat → DayOracle)
    (filename : String) : Option (List String) :=
  let s := dateOrdinal sy sm sd
  let e := dateOrdinal ey em ed + 1
  match vacationStep vacArg orc (rawWorkdays s e) with
  | none => none
  | some active =>
    some (scriptLines (mainCommits minC maxC countR dayR filename 0 active) filename)

/-! ### Definitions used only to state claims and witnesses -/

/-- Modelled from the spec's words for the auto default
("max(1, round(0.08 × workday count))"): the same formula with true rounding
instead of the code's `int()` truncation, for comparison with
`vacationResolve`. -/
def vacationAutoSpecRound (w : Nat) : Int := max 1 (round ((w : ℚ) * (8 / 100)))

/-- A concrete message oracle (all choices index 0), for witnesses. -/
def trivialMsgOracle : MsgOracle := ⟨0, 0, 0, 0, 0, 0, 0⟩

/-- A concrete day oracle with an empty sample, for witnesses. -/
def trivialDayOracle : DayOracle :=
  ⟨[], fun _ => 0, fun _ => 0, fun _ => 0, fun _ => trivialMsgOracle⟩

/-- A concrete day oracle valid for two commits per day, for witnesses. -/
def twoCommitDayOracle : DayOracle :=
  ⟨[9, 10], fun _ => 0, fun _ => 0, fun _ => 0, fun _ => trivialMsgOracle⟩

/-- A concrete day oracle exhibiting ten commits on one day: the sample is all
nine work hours and the top-up choice repeats hour 9; the first commit of the
day gets minute 59, all others minute 0. -/
def tenCommitDayOracle : DayOracle :=
  ⟨[9, 10, 11, 12, 13, 14, 15, 16, 17], fun _ => 0,
    fun i => if i = 0 then 59 else 0, fun _ => 0, fun _ => trivialMsgOracle⟩

/-- Sample oracle that takes a prefix of the listed workdays, for witnesses. -/
def prefixSampleOracle (pop : List Nat) : Nat → List Nat := fun k => pop.take k

/-- The raw workday list of the spec's end-to-end example: start date
2024-01-01, end date 2024-01-05 (made exclusive by adding one day). -/
def exampleRangeWorkdays : List Nat :=
  rawWorkdays (dateOrdinal 2024 1 1) (dateOrdinal 2024 1 5 + 1)

/-- Placeholder commit used as `getD` default in witnesses. -/
def defaultCommit : Commit := ⟨0, 0, 0, 0, ""⟩

/-- Number of single-quote characters in a string. -/
def countSq (s : String) : Nat := s.data.count sqChar

/-- `l` starts with `p`: string prefix test used to classify script lines. -/
def lineStartsB (p l : String) : Bool := p.data.isPrefixOf l.data

/-- The string contains no single-quote character. -/
abbrev noSqStr (s : String) : Prop := ∀ c ∈ s.data, c ≠ sqChar

/-! ## Theorems -/

/-! ### Calendar filter -/

theorem collectWorkdays_workday :
    ∀ (n cur d : Nat), d ∈ collectWorkdays cur n → is_workday d = true := by
  intro n
  induction n with
  | zero => intro cur d h; simp [collectWorkdays] at h
  | succ k ih =>
    intro cur d h
    simp only [collectWorkdays] at h
    split at h
    · rcases List.mem_cons.1 h with rfl | h2
      · assumption
      · exact ih _ _ h2
    · exact ih _ _ h

/-- C6: every date in the computed workday sequence has weekday index 0-4
(Monday-Friday), and no date with weekday index 5-6 (Saturday-Sunday) is
included. -/
theorem claim_C6 (s e : Nat) :
    (∀ d ∈ rawWorkdays s e, pyWeekday d < 5) ∧
    (∀ d, 5 ≤ pyWeekday d → d ∉ rawWorkdays s e) := by
  constructor
  · intro d hd
    have h := collectWorkdays_workday (e - s) s d hd
    simpa [is_workday] using h
  · intro d hd hmem
    have h := collectWorkdays_workday (e - s) s d hmem
    simp [is_workday] at h
    omega

/-- C6 witness: 2024-01-01 (a Monday) appears in the workday sequence for the
range 2024-01-01 .. 2024-01-02 and indeed has weekday index below 5. -/
theorem claim_C6_witness : pyWeekday (dateOrdinal 2024 1 1) < 5 :=
  (claim_C6 (dateOrdinal 2024 1 1) (dateOrdinal 2024 1 1 + 1)).1 _ (by decide)

/-! ### Vacation resolution (C2) -/

/-- The auto default of `main` computes the truncation of the exact product:
`max(1, int(W * 0.08)) = max 1 (W * 8 / 100)`. -/
theorem vacationResolve_neg (vacArg : Int) (h : vacArg < 0) (w : Nat) :
    vacationResolve vacArg w = max 1 ((w * 8 / 100 : Nat) : Int) := by
  rw [vacationResolve, if_pos h]
  congr 1
  have hq : (0 : ℚ) ≤ (w : ℚ) * (8 / 100) := by positivity
  have h1 : pyTrunc ((w : ℚ) * (8 / 100)) = ⌊(w : ℚ) * (8 / 100)⌋ := by
    rw [pyTrunc, Int.tdiv_eq_ediv (Rat.num_nonneg.2 hq) (Int.ofNat_nonneg _),
      Rat.floor_def]
  have h2 : (w : ℚ) * (8 / 100) = (((w * 8 : ℕ) : ℤ) : ℚ) / ((100 : ℕ) : ℚ) := by
    push_cast
    ring
  rw [h1, h2, Rat.floor_intCast_div_natCast]
  exact (Int.natCast_div (w * 8) 100).symm

/-- C2 counterexample: the range 2024-01-01 .. 2024-01-26 yields 20 workdays;
the code's auto default max(1, int(20 * 0.08)) is 1, while the claim's
formula max(1, round(0.08 * 20)) gives 2. -/
theorem claim_C2_counterexample :
    (rawWorkdays (dateOrdinal 2024 1 1) (dateOrdinal 2024 1 26 + 1)).length = 20 ∧
    vacationResolve (-1) 20 = 1 ∧ vacationAutoSpecRound 20 = 2 ∧ (1 : Int) ≠ 2 := by
  refine ⟨by decide, ?_, ?_, by decide⟩
  · rw [vacationResolve_neg (-1) (by decide) 20]
    decide
  · rw [vacationAutoSpecRound]
    norm_num [round_eq]

/-- C2 amended: with a negative vacation-days argument (the auto sentinel),
the vacation-day count used is max(1, ⌊0.08 × W⌋) — Python `int()` truncation
of the product, not rounding. -/
theorem claim_C2_amended (vacArg : Int) (h : vacArg < 0) (w : Nat) :
    vacationResolve vacArg w = max 1 ((w * 8 / 100 : Nat) : Int) :=
  vacationResolve_neg vacArg h w

/-- C2 amended, witness at the counterexample's workday count. -/
theorem claim_C2_amended_witness :
    vacationResolve (-1) 20 = max 1 ((20 * 8 / 100 : Nat) : Int) :=
  claim_C2_amended (-1) (by decide) 20

/-! ### Vacation removal (C4, C5) -/

theorem length_filter_not_mem (l s : List Nat) (hl : l.Nodup) (hs : s.Nodup)
    (hsub : ∀ d ∈ s, d ∈ l) :
    (l.filter (fun d => decide (d ∉ s))).length = l.length - s.length := by
  have hperm : List.Perm (l.filter (fun d => decide (d ∈ s))) s := by
    rw [List.perm_ext_iff_of_nodup (hl.filter _) hs]
    intro a
    simp only [List.mem_filter, decide_eq_true_eq]
    exact ⟨fun h => h.2, fun h => ⟨hsub a h, h⟩⟩
  have hlen := List.length_eq_length_filter_add (l := l) (fun d => decide (d ∈ s))
  have hcompl : l.filter (fun d => !(decide (d ∈ s))) = l.filter (fun d => decide (d ∉ s)) := by
    simp
  rw [hcompl] at hlen
  rw [hlen, hperm.length_eq]
  omega

/-- C4: for W ≥ 1 raw workdays and an explicit vacation count N ≥ 0 the
number of active workdays is W − N when N < W, and exactly 1 when N ≥ W. -/
theorem claim_C4 (workdays : List Nat) (orc : Nat → List Nat) (N : Int)
    (hW : 1 ≤ workdays.length) (hN : 0 ≤ N) (hnd : workdays.Nodup)
    (horc : SampleOracle.valid orc workdays
      (min N ((workdays.length : Int) - 1)).toNat) :
    ∃ active, vacationStep N orc workdays = some active ∧
      active.length =
        if N < (workdays.length : Int) then workdays.length - N.toNat else 1 := by
  have hres : vacationResolve N workdays.length = N := by
    rw [vacationResolve, if_neg (not_lt.2 hN)]
  have hW1 : (1 : ℤ) ≤ (workdays.length : ℤ) := by exact_mod_cast hW
  by_cases hN0 : 0 < N
  · have h0 : 0 ≤ min N ((workdays.length : Int) - 1) := le_min hN (by omega)
    have hle : min N ((workdays.length : Int) - 1) ≤ (workdays.length : ℤ) :=
      le_trans (min_le_right _ _) (by omega)
    have hcondf : ¬ (min N ((workdays.length : Int) - 1) < 0 ∨
        (workdays.length : ℤ) < min N ((workdays.length : Int) - 1)) := by omega
    simp only [vacationStep, hres, if_pos hN0, if_neg hcondf]
    obtain ⟨hnd2, hsub2, hlen2⟩ := horc
    refine ⟨_, rfl, ?_⟩
    rw [length_filter_not_mem workdays _ hnd hnd2 hsub2, hlen2]
    rcases lt_or_ge N (workdays.length : ℤ) with hlt | hge
    · rw [if_pos hlt, min_eq_left (by omega)]
    · rw [if_neg (not_lt.2 hge), min_eq_right (by omega)]
      omega
  · have hNz : N = 0 := le_antisymm (not_lt.1 hN0) hN
    subst hNz
    simp only [vacationStep, hres, if_neg hN0]
    refine ⟨workdays, rfl, ?_⟩
    rw [if_pos (by omega)]
    simp

/-- C4 witness: two workdays, one vacation day, one remaining. -/
theorem claim_C4_witness :
    ∃ active,
      vacationStep 1 (prefixSampleOracle [738886, 738887]) [738886, 738887] =
        some active ∧
      active.length =
        if (1 : Int) < ((2 : Nat) : Int) then (2 : Nat) - (1 : Int).toNat else 1 := by
  have h := claim_C4 [738886, 738887] (prefixSampleOracle [738886, 738887]) 1
    (by decide) (by decide) (by decide) ⟨by decide, by decide, by decide⟩
  simpa using h

theorem vacationStep_zero (orc : Nat → List Nat) (wds : List Nat) :
    vacationStep 0 orc wds = some wds := by
  simp [vacationStep, vacationResolve]

/-- C5: if the expanded range contains zero workdays and the vacation-day
argument is the negative auto sentinel, the run fails (sample size −1
requested from an empty list) before any script is produced. -/
theorem claim_C5 (sy sm sd ey em ed minC maxC : Nat) (vacArg : Int)
    (orc : Nat → List Nat) (countR : Nat → Nat) (dayR : Nat → DayOracle)
    (fn : String)
    (hraw : rawWorkdays (dateOrdinal sy sm sd) (dateOrdinal ey em ed + 1) = [])
    (hneg : vacArg < 0) :
    runMain sy sm sd ey em ed minC maxC vacArg orc countR dayR fn = none := by
  have hres : vacationResolve vacArg 0 = 1 := by
    rw [vacationResolve, if_pos hneg]
    norm_num [pyTrunc]
  have hstep : vacationStep vacArg orc [] = none := by
    simp only [vacationStep, List.length_nil, hres]
    norm_num
  simp only [runMain, hraw, hstep]

/-- C5 witness: the range 2024-01-06 .. 2024-01-06 (a Saturday) has no
workdays; with the default sentinel the pipeline yields no script. -/
theorem claim_C5_witness :
    runMain 2024 1 6 2024 1 6 3 5 (-1) (fun _ => []) (fun _ => 0)
      (fun _ => trivialDayOracle) "work.log" = none :=
  claim_C5 2024 1 6 2024 1 6 3 5 (-1) _ _ _ _ (by decide) (by decide)

/-! ### Commit synthesis: hour selection and per-commit bounds -/

theorem pyChoice_mem {α : Type} (l : List α) (i : Nat) (d : α) (h : l ≠ []) :
    pyChoice l i d ∈ l := by
  have hlt : i % l.length < l.length := Nat.mod_lt _ (List.length_pos.2 h)
  rw [pyChoice, List.getD_eq_getElem?_getD, List.getElem?_eq_getElem hlt]
  exact List.getElem_mem hlt

theorem pyRandint_le_59 (r : Nat) : pyRandint 0 59 r ≤ 59 := by
  simp only [pyRandint]
  norm_num
  omega

theorem work_hours_bound : ∀ h ∈ work_hours, 9 ≤ h ∧ h < 18 := by decide

theorem selectHours_sorted (o : DayOracle) (n : Nat) :
    List.Sorted (· ≤ ·) (selectHours o n) :=
  List.sorted_insertionSort _ _

theorem selectHours_mem (o : DayOracle) (n : Nat)
    (hs : ∀ h ∈ o.sample, h ∈ work_hours) :
    ∀ h ∈ selectHours o n, h ∈ work_hours := by
  intro h hmem
  simp only [selectHours] at hmem
  have h1 := (List.perm_insertionSort (· ≤ ·) _).mem_iff.1 hmem
  have h2 := List.mem_of_mem_take h1
  rcases List.mem_append.1 h2 with h3 | h3
  · exact hs _ ((List.perm_insertionSort (· ≤ ·) _).mem_iff.1 h3)
  · rcases List.mem_map.1 h3 with ⟨j, -, rfl⟩
    exact pyChoice_mem _ _ _ (by decide)

theorem selectHours_length (o : DayOracle) (n : Nat) (hval : o.valid n) :
    (selectHours o n).length = n := by
  obtain ⟨-, -, hlen⟩ := hval
  simp only [selectHours]
  rw [(List.perm_insertionSort (· ≤ ·) _).length_eq, List.length_take,
    List.length_append, (List.perm_insertionSort (· ≤ ·) _).length_eq, hlen,
    List.length_map, List.length_range]
  have hwl : work_hours.length = 9 := by decide
  rw [hwl] at *
  rcases Nat.le_total n 9 with h | h
  · rw [min_eq_left h]
    omega
  · rw [min_eq_right h]
    omega

theorem buildCommits_map_hour (day : Nat) (o : DayOracle) :
    ∀ (hs : List Nat) (i : Nat),
      (buildCommits day o i hs).map (fun c => c.hour) = hs := by
  intro hs
  induction hs with
  | nil => intro i; rfl
  | cons h t ih => intro i; simp [buildCommits, ih]

theorem buildCommits_day (day : Nat) (o : DayOracle) :
    ∀ (hs : List Nat) (i : Nat) (c : Commit),
      c ∈ buildCommits day o i hs → c.day = day := by
  intro hs
  induction hs with
  | nil => intro i c h; simp [buildCommits] at h
  | cons hd t ih =>
    intro i c h
    rcases List.mem_cons.1 h with rfl | h2
    · rfl
    · exact ih _ _ h2

theorem buildCommits_minsec (day : Nat) (o : DayOracle) :
    ∀ (hs : List Nat) (i : Nat) (c : Commit),
      c ∈ buildCommits day o i hs → c.minute ≤ 59 ∧ c.second ≤ 59 := by
  intro hs
  induction hs with
  | nil => intro i c h; simp [buildCommits] at h
  | cons hd t ih =>
    intro i c h
    rcases List.mem_cons.1 h with rfl | h2
    · exact ⟨pyRandint_le_59 _, pyRandint_le_59 _⟩
    · exact ih _ _ h2

theorem generate_commits_bounds (day n : Nat) (o : DayOracle) (fn : String)
    (hs : ∀ h ∈ o.sample, h ∈ work_hours) :
    ∀ c ∈ generate_commits_for_day day n o fn,
      9 ≤ c.hour ∧ c.hour < 18 ∧ c.minute ≤ 59 ∧ c.second ≤ 59 := by
  intro c hc
  have hhour : c.hour ∈ selectHours o n := by
    rw [← buildCommits_map_hour day o (selectHours o n) 0]
    exact List.mem_map_of_mem _ hc
  have hwh := selectHours_mem o n hs _ hhour
  have hbound := work_hours_bound _ hwh
  have hms := buildCommits_minsec day o (selectHours o n) 0 c hc
  exact ⟨hbound.1, hbound.2, hms.1, hms.2⟩

/-- C7: every generated commit has hour in [9,18) and minute and second in
[0,59]. -/
theorem claim_C7 (day n : Nat) (o : DayOracle) (fn : String)
    (hs : ∀ h ∈ o.sample, h ∈ work_hours) :
    ∀ c ∈ generate_commits_for_day day n o fn,
      9 ≤ c.hour ∧ c.hour < 18 ∧ c.minute ≤ 59 ∧ c.second ≤ 59 :=
  generate_commits_bounds day n o fn hs

/-- C7 witness: the first commit of a concrete two-commit day is in range. -/
theorem claim_C7_witness :
    9 ≤ ((generate_commits_for_day 738886 2 twoCommitDayOracle "work.log").getD 0
        defaultCommit).hour ∧
    ((generate_commits_for_day 738886 2 twoCommitDayOracle "work.log").getD 0
        defaultCommit).hour < 18 ∧
    ((generate_commits_for_day 738886 2 twoCommitDayOracle "work.log").getD 0
        defaultCommit).minute ≤ 59 ∧
    ((generate_commits_for_day 738886 2 twoCommitDayOracle "work.log").getD 0
        defaultCommit).second ≤ 59 :=
  claim_C7 738886 2 twoCommitDayOracle "work.log" (by decide) _ (by decide)

/-! ### Commit ordering (C3) -/

/-- C3 counterexample: a valid run (oracle satisfies the `random.sample`
contract) with ten commits on one day in which the full timestamps are not
non-decreasing: hour 9 occurs twice, with minute 59 before minute 0. -/
theorem claim_C3_counterexample :
    DayOracle.valid tenCommitDayOracle 10 ∧
    ¬ List.Pairwise (fun a b => tsKey a ≤ tsKey b)
        (generate_commits_for_day 738886 10 tenCommitDayOracle "work.log") := by
  constructor
  · exact ⟨by decide, by decide, by decide⟩
  · decide

theorem collectWorkdays_le :
    ∀ (n cur d : Nat), d ∈ collectWorkdays cur n → cur ≤ d := by
  intro n
  induction n with
  | zero => intro cur d h; simp [collectWorkdays] at h
  | succ k ih =>
    intro cur d h
    simp only [collectWorkdays] at h
    split at h
    · rcases List.mem_cons.1 h with rfl | h2
      · exact le_refl _
      · exact le_trans (Nat.le_succ _) (ih _ _ h2)
    · exact le_trans (Nat.le_succ _) (ih _ _ h)

theorem collectWorkdays_sorted :
    ∀ (n cur : Nat), List.Sorted (· < ·) (collectWorkdays cur n) := by
  intro n
  induction n with
  | zero => intro cur; simp [collectWorkdays]
  | succ k ih =>
    intro cur
    simp only [collectWorkdays]
    split
    · rw [List.sorted_cons]
      exact ⟨fun b hb => lt_of_lt_of_le (Nat.lt_succ_self _) (collectWorkdays_le _ _ _ hb),
        ih _⟩
    · exact ih _

theorem vacationStep_sublist (vacArg : Int) (orc : Nat → List Nat)
    (wds l : List Nat) (h : vacationStep vacArg orc wds = some l) :
    List.Sublist l wds := by
  simp only [vacationStep] at h
  split at h
  · split at h
    · cases h
    · cases h
      exact List.filter_sublist _
  · cases h
    exact List.Sublist.refl _

theorem mainCommits_day_mem (minC maxC : Nat) (countR : Nat → Nat)
    (dayR : Nat → DayOracle) (fn : String) :
    ∀ (days : List Nat) (i : Nat) (c : Commit),
      c ∈ mainCommits minC maxC countR dayR fn i days → c.day ∈ days := by
  intro days
  induction days with
  | nil => intro i c h; simp [mainCommits] at h
  | cons wd rest ih =>
    intro i c h
    simp only [mainCommits] at h
    rcases List.mem_append.1 h with h2 | h2
    · rw [buildCommits_day wd (dayR i) _ 0 c h2]
      exact List.mem_cons_self _ _
    · exact List.mem_cons_of_mem _ (ih _ _ h2)

theorem mainCommits_pairwise (minC maxC : Nat) (countR : Nat → Nat)
    (dayR : Nat → DayOracle) (fn : String) :
    ∀ (days : List Nat) (i : Nat), List.Sorted (· < ·) days →
      List.Pairwise
        (fun a b : Commit => a.day < b.day ∨ (a.day = b.day ∧ a.hour ≤ b.hour))
        (mainCommits minC maxC countR dayR fn i days) := by
  intro days
  induction days with
  | nil => intro i _; simp [mainCommits]
  | cons wd rest ih =>
    intro i hsort
    rw [List.sorted_cons] at hsort
    simp only [mainCommits]
    rw [List.pairwise_append]
    refine ⟨?_, ih (i + 1) hsort.2, ?_⟩
    · have hmap := buildCommits_map_hour wd (dayR i)
        (selectHours (dayR i) (pyRandint minC maxC (countR i))) 0
      have hsorted := selectHours_sorted (dayR i) (pyRandint minC maxC (countR i))
      rw [← hmap] at hsorted
      have hhour := List.pairwise_map.1 hsorted
      refine hhour.imp_of_mem ?_
      intro a b ha hb hab
      right
      refine ⟨?_, hab⟩
      rw [buildCommits_day wd (dayR i) _ 0 a ha, buildCommits_day wd (dayR i) _ 0 b hb]
    · intro a ha b hb
      left
      rw [buildCommits_day wd (dayR i) _ 0 a ha]
      exact hsort.1 _ (mainCommits_day_mem minC maxC countR dayR fn rest (i + 1) b hb)

/-- C3 amended: within each single workday the generated commits appear in
non-decreasing HOUR order (the code sorts only the hour slots; minutes and
seconds within a repeated hour are unordered), and across the full commit
list the workdays appear in ascending calendar order. -/
theorem claim_C3_amended (s e : Nat) (vacArg : Int) (orc : Nat → List Nat)
    (active : List Nat) (minC maxC : Nat) (countR : Nat → Nat)
    (dayR : Nat → DayOracle) (fn : String)
    (hact : vacationStep vacArg orc (rawWorkdays s e) = some active) :
    List.Pairwise
      (fun a b : Commit => a.day < b.day ∨ (a.day = b.day ∧ a.hour ≤ b.hour))
      (mainCommits minC maxC countR dayR fn 0 active) := by
  have hsub := vacationStep_sublist _ _ _ _ hact
  have hsorted : List.Sorted (· < ·) active :=
    List.Pairwise.sublist hsub (collectWorkdays_sorted _ _)
  exact mainCommits_pairwise minC maxC countR dayR fn active 0 hsorted

/-- C3 amended witness: the week 2024-01-01 .. 2024-01-05 with no vacation
days and two commits per day is ordered as stated. -/
theorem claim_C3_amended_witness :
    List.Pairwise
      (fun a b : Commit => a.day < b.day ∨ (a.day = b.day ∧ a.hour ≤ b.hour))
      (mainCommits 2 2 (fun _ => 0) (fun _ => twoCommitDayOracle) "work.log" 0
        (rawWorkdays 738886 738891)) :=
  claim_C3_amended 738886 738891 0 (fun _ => []) _ 2 2 _ _ _ (by decide)

/-! ### String helpers -/

theorem data_mk (l : List Char) : (String.mk l).data = l := rfl

theorem data_append (s t : String) : (s ++ t).data = s.data ++ t.data := by
  cases s
  cases t
  rfl

theorem countSq_append (s t : String) : countSq (s ++ t) = countSq s + countSq t := by
  rw [countSq, countSq, countSq, data_append, List.count_append]

theorem noSqStr_append {s t : String} (hs : noSqStr s) (ht : noSqStr t) :
    noSqStr (s ++ t) := by
  intro c hc
  rw [data_append] at hc
  rcases List.mem_append.1 hc with h | h
  · exact hs c h
  · exact ht c h

theorem noSqStr_countSq {s : String} (h : noSqStr s) : countSq s = 0 := by
  rw [countSq, List.count_eq_zero]
  intro hmem
  exact h _ hmem rfl

/-! ### Template tables: character facts (checked by evaluation) -/

theorem templates_scanOk : ∀ t ∈ allTemplates, scanOk false t.data = true := by decide

theorem templates_noSq : ∀ t ∈ allTemplates, ∀ c ∈ t.data, c ≠ sqChar := by decide

theorem COMPONENTS_good :
    ∀ f ∈ COMPONENTS, ∀ c ∈ f.data, c ≠ lbrace ∧ c ≠ rbrace ∧ c ≠ sqChar := by decide

theorem ISSUES_good :
    ∀ f ∈ ISSUES, ∀ c ∈ f.data, c ≠ lbrace ∧ c ≠ rbrace ∧ c ≠ sqChar := by decide

theorem SYMPTOMS_good :
    ∀ f ∈ SYMPTOMS, ∀ c ∈ f.data, c ≠ lbrace ∧ c ≠ rbrace ∧ c ≠ sqChar := by decide

theorem PRS_good :
    ∀ f ∈ PRS, ∀ c ∈ f.data, c ≠ lbrace ∧ c ≠ rbrace ∧ c ≠ sqChar := by decide

theorem FEATURES_good :
    ∀ f ∈ FEATURES, ∀ c ∈ f.data, c ≠ lbrace ∧ c ≠ rbrace ∧ c ≠ sqChar := by decide

theorem empty_good :
    ∀ c ∈ ("" : String).data, c ≠ lbrace ∧ c ≠ rbrace ∧ c ≠ sqChar := by decide

theorem pyChoice_mem_or {α : Type} (l : List α) (i : Nat) (d : α) :
    pyChoice l i d ∈ l ∨ pyChoice l i d = d := by
  cases l with
  | nil => right; rfl
  | cons a t => left; exact pyChoice_mem _ _ _ (by simp)

theorem fillEnv_good (o : MsgOracle) (name : String) :
    ∀ c ∈ (fillEnv o name).data, c ≠ lbrace ∧ c ≠ rbrace ∧ c ≠ sqChar := by
  intro c hc
  simp only [fillEnv] at hc
  split_ifs at hc
  · rcases pyChoice_mem_or COMPONENTS o.comp "" with hm | he
    · exact COMPONENTS_good _ hm _ hc
    · rw [he] at hc; exact empty_good _ hc
  · rcases pyChoice_mem_or ISSUES o.iss "" with hm | he
    · exact ISSUES_good _ hm _ hc
    · rw [he] at hc; exact empty_good _ hc
  · rcases pyChoice_mem_or SYMPTOMS o.symp "" with hm | he
    · exact SYMPTOMS_good _ hm _ hc
    · rw [he] at hc; exact empty_good _ hc
  · rcases pyChoice_mem_or PRS o.pr "" with hm | he
    · exact PRS_good _ hm _ hc
    · rw [he] at hc; exact empty_good _ hc
  · rcases pyChoice_mem_or FEATURES o.feat "" with hm | he
    · exact FEATURES_good _ hm _ hc
    · rw [he] at hc; exact empty_good _ hc
  · exact empty_good _ hc

theorem COMMIT_MESSAGES_sub (cat t : String) (h : t ∈ COMMIT_MESSAGES cat) :
    t ∈ allTemplates := by
  rw [COMMIT_MESSAGES] at h
  split_ifs at h
  · fin_cases h <;> decide
  · fin_cases h <;> decide
  · fin_cases h <;> decide
  · fin_cases h <;> decide
  · fin_cases h <;> decide
  · fin_cases h <;> decide
  · exact absurd h (List.not_mem_nil t)

/-! ### `str.format`: characters of the rendered output -/

theorem formatAux_chars (P : Char → Prop) (env : String → String)
    (henv : ∀ name, ∀ c ∈ (env name).data, P c) :
    ∀ (s : List Char) (st : Option (List Char)),
      (∀ c ∈ s, P c) → ∀ c ∈ formatAux env st s, P c := by
  intro s
  induction s with
  | nil =>
    intro st hs c hc
    cases st <;> simp [formatAux] at hc
  | cons a r ih =>
    intro st hs c hc
    cases st with
    | none =>
      simp only [formatAux] at hc
      by_cases ha : a = lbrace
      · rw [if_pos ha] at hc
        exact ih _ (fun x hx => hs x (List.mem_cons_of_mem _ hx)) c hc
      · rw [if_neg ha] at hc
        rcases List.mem_cons.1 hc with rfl | hc2
        · exact hs _ (List.mem_cons_self _ _)
        · exact ih _ (fun x hx => hs x (List.mem_cons_of_mem _ hx)) c hc2
    | some acc =>
      simp only [formatAux] at hc
      by_cases ha : a = rbrace
      · rw [if_pos ha] at hc
        rcases List.mem_append.1 hc with hc2 | hc2
        · exact henv _ _ hc2
        · exact ih _ (fun x hx => hs x (List.mem_cons_of_mem _ hx)) c hc2
      · rw [if_neg ha] at hc
        exact ih _ (fun x hx => hs x (List.mem_cons_of_mem _ hx)) c hc

/-- On a well-formed template (`scanOk`), the rendered output contains no
brace character: field delimiters are consumed and replaced by env values. -/
theorem formatAux_noBrace (env : String → String)
    (henv : ∀ name, ∀ c ∈ (env name).data, c ≠ lbrace ∧ c ≠ rbrace) :
    ∀ (s : List Char),
      (scanOk false s = true →
        ∀ c ∈ formatAux env none s, c ≠ lbrace ∧ c ≠ rbrace) ∧
      (scanOk true s = true →
        ∀ acc, ∀ c ∈ formatAux env (some acc) s, c ≠ lbrace ∧ c ≠ rbrace) := by
  intro s
  induction s with
  | nil =>
    constructor
    · intro _ c hc
      simp [formatAux] at hc
    · intro h
      simp [scanOk] at h
  | cons a r ih =>
    constructor
    · intro hscan c hc
      simp only [scanOk] at hscan
      simp only [formatAux] at hc
      by_cases ha : a = lbrace
      · rw [if_pos ha] at hscan hc
        exact ih.2 hscan [] c hc
      · rw [if_neg ha] at hscan hc
        by_cases ha2 : a = rbrace
        · rw [if_pos ha2] at hscan
          exact Bool.noConfusion hscan
        · rw [if_neg ha2] at hscan
          rcases List.mem_cons.1 hc with rfl | hc2
          · exact ⟨ha, ha2⟩
          · exact ih.1 hscan c hc2
    · intro hscan acc c hc
      simp only [scanOk] at hscan
      simp only [formatAux] at hc
      by_cases ha : a = rbrace
      · rw [if_pos ha] at hscan hc
        rcases List.mem_append.1 hc with hc2 | hc2
        · exact henv _ _ hc2
        · exact ih.1 hscan c hc2
      · rw [if_neg ha] at hscan hc
        by_cases ha2 : a = lbrace
        · rw [if_pos ha2] at hscan
          exact Bool.noConfusion hscan
        · rw [if_neg ha2] at hscan
          exact ih.2 hscan _ c hc

theorem message_noBrace (category : String) (o : MsgOracle) :
    ∀ c ∈ (pyFormat (pyChoice (COMMIT_MESSAGES category) o.tmpl "") (fillEnv o)).data,
      c ≠ lbrace ∧ c ≠ rbrace := by
  rcases pyChoice_mem_or (COMMIT_MESSAGES category) o.tmpl "" with hm | he
  · intro c hc
    rw [pyFormat, data_mk] at hc
    exact (formatAux_noBrace (fillEnv o)
      (fun name c hc2 => ⟨(fillEnv_good o name c hc2).1, (fillEnv_good o name c hc2).2.1⟩)
      _).1 (templates_scanOk _ (COMMIT_MESSAGES_sub category _ hm)) c hc
  · rw [he]
    intro c hc
    exact absurd hc (List.not_mem_nil c)

/-- C8: the rendered commit message contains no brace character: every
placeholder of the chosen template was replaced by its filler value and no
literal placeholder syntax survives. -/
theorem claim_C8 (hour : Nat) (o : MsgOracle) :
    ∀ c ∈ (generate_commit_message hour o).data, c ≠ lbrace ∧ c ≠ rbrace := by
  intro c hc
  simp only [generate_commit_message] at hc
  exact message_noBrace _ o c hc

/-- C8 witness: the first character of a concrete rendered message is not a
brace. -/
theorem claim_C8_witness :
    ((generate_commit_message 10 trivialMsgOracle).data.getD 0 sqChar) ≠ lbrace ∧
    ((generate_commit_message 10 trivialMsgOracle).data.getD 0 sqChar) ≠ rbrace :=
  claim_C8 10 trivialMsgOracle _ (by decide)

/-! ### Single quotes (C10) -/

theorem message_noSq (category : String) (o : MsgOracle) :
    ∀ c ∈ (pyFormat (pyChoice (COMMIT_MESSAGES category) o.tmpl "") (fillEnv o)).data,
      c ≠ sqChar := by
  rcases pyChoice_mem_or (COMMIT_MESSAGES category) o.tmpl "" with hm | he
  · intro c hc
    rw [pyFormat, data_mk] at hc
    exact formatAux_chars (· ≠ sqChar) (fillEnv o)
      (fun name c hc2 => (fillEnv_good o name c hc2).2.2) _ none
      (templates_noSq _ (COMMIT_MESSAGES_sub category _ hm)) c hc
  · rw [he]
    intro c hc
    exact absurd hc (List.not_mem_nil c)

theorem generate_commit_message_noSq (hour : Nat) (o : MsgOracle) :
    noSqStr (generate_commit_message hour o) := by
  intro c hc
  simp only [generate_commit_message] at hc
  exact message_noSq _ o c hc

theorem digitChar_lt10_ne (n : Nat) (h : n < 10) : Nat.digitChar n ≠ sqChar := by
  interval_cases n <;> decide

theorem digitChar_mod10_ne (n : Nat) : Nat.digitChar (n % 10) ≠ sqChar :=
  digitChar_lt10_ne _ (Nat.mod_lt _ (by norm_num))

theorem pad2_noSq (n : Nat) : noSqStr (pad2 n) := by
  intro c hc
  rw [pad2, data_mk] at hc
  rcases List.mem_cons.1 hc with rfl | hc2
  · exact digitChar_mod10_ne _
  rcases List.mem_cons.1 hc2 with rfl | hc3
  · exact digitChar_mod10_ne _
  exact absurd hc3 (List.not_mem_nil c)

theorem pad4_noSq (n : Nat) : noSqStr (pad4 n) := by
  intro c hc
  rw [pad4, data_mk] at hc
  rcases List.mem_cons.1 hc with rfl | hc2
  · exact digitChar_mod10_ne _
  rcases List.mem_cons.1 hc2 with rfl | hc3
  · exact digitChar_mod10_ne _
  rcases List.mem_cons.1 hc3 with rfl | hc4
  · exact digitChar_mod10_ne _
  rcases List.mem_cons.1 hc4 with rfl | hc5
  · exact digitChar_mod10_ne _
  exact absurd hc5 (List.not_mem_nil c)

theorem dateStr_noSq (d : Nat) : noSqStr (dateStr d) := by
  rw [dateStr]
  exact noSqStr_append (noSqStr_append (noSqStr_append (noSqStr_append
    (pad4_noSq _) (by decide)) (pad2_noSq _)) (by decide)) (pad2_noSq _)

theorem timestampStr_noSq (c : Commit) : noSqStr (timestampStr c) := by
  rw [timestampStr]
  exact noSqStr_append (noSqStr_append (noSqStr_append (noSqStr_append
    (noSqStr_append (noSqStr_append (dateStr_noSq _) (by decide)) (pad2_noSq _))
    (by decide)) (pad2_noSq _)) (by decide)) (pad2_noSq _)

theorem isoTimestampStr_noSq (c : Commit) : noSqStr (isoTimestampStr c) := by
  rw [isoTimestampStr]
  exact noSqStr_append (noSqStr_append (noSqStr_append (noSqStr_append
    (noSqStr_append (noSqStr_append (dateStr_noSq _) (by decide)) (pad2_noSq _))
    (by decide)) (pad2_noSq _)) (by decide)) (pad2_noSq _)

theorem contentLine_noSq {c : Commit} (hm : noSqStr c.message) :
    noSqStr (contentLine c) := by
  rw [contentLine]
  exact noSqStr_append (noSqStr_append (noSqStr_append (noSqStr_append
    (by decide) (timestampStr_noSq c)) (by decide)) hm) (by decide)

theorem pyRstrip_noSq {s : String} (h : noSqStr s) : noSqStr (pyRstrip s) := by
  intro c hc
  rw [pyRstrip, data_mk] at hc
  rw [List.mem_reverse] at hc
  have h2 := (List.dropWhile_sublist _).subset hc
  rw [List.mem_reverse] at h2
  exact h c h2

theorem echoLine_countSq (c : Commit) (hm : noSqStr c.message) :
    countSq (echoLine c) = 2 := by
  have hr : countSq (pyRstrip (contentLine c)) = 0 :=
    noSqStr_countSq (pyRstrip_noSq (contentLine_noSq hm))
  rw [echoLine]
  simp only [countSq_append, hr]
  have h1 : countSq "echo " = 0 := by decide
  have h2 : countSq sqStr = 1 := by decide
  have h3 : countSq " >> \"$FILE\"" = 0 := by decide
  omega

theorem gitCommitLine_countSq (c : Commit) (hm : noSqStr c.message) :
    countSq (gitCommitLine c) = 2 := by
  have hmsg : countSq c.message = 0 := noSqStr_countSq hm
  rw [gitCommitLine]
  simp only [countSq_append, hmsg]
  have h1 : countSq "git commit -m " = 0 := by decide
  have h2 : countSq sqStr = 1 := by decide
  omega

theorem buildCommits_message (day : Nat) (o : DayOracle) :
    ∀ (hs : List Nat) (i : Nat) (c : Commit), c ∈ buildCommits day o i hs →
      ∃ j, c.message = generate_commit_message c.hour (o.msg j) := by
  intro hs
  induction hs with
  | nil => intro i c h; simp [buildCommits] at h
  | cons hd t ih =>
    intro i c h
    rcases List.mem_cons.1 h with rfl | h2
    · exact ⟨i, rfl⟩
    · exact ih _ _ h2

/-- C10: every producible commit message contains no single-quote character,
so the echo line and the git-commit line emitted for a commit each contain
exactly the two single quotes that delimit the message. -/
theorem claim_C10 (day n : Nat) (o : DayOracle) (fn : String) :
    ∀ c ∈ generate_commits_for_day day n o fn,
      countSq c.message = 0 ∧ countSq (echoLine c) = 2 ∧
        countSq (gitCommitLine c) = 2 := by
  intro c hc
  obtain ⟨j, hj⟩ := buildCommits_message day o (selectHours o n) 0 c hc
  have hm : noSqStr c.message := by
    rw [hj]
    exact generate_commit_message_noSq _ _
  exact ⟨noSqStr_countSq hm, echoLine_countSq c hm, gitCommitLine_countSq c hm⟩

/-! ### Script line classification (C9) -/

theorem lineStartsB_append_left {p a : String} (b : String)
    (h : lineStartsB p a = true) : lineStartsB p (a ++ b) = true := by
  rw [lineStartsB, List.isPrefixOf_iff_prefix] at h ⊢
  rw [data_append]
  exact h.trans (List.prefix_append _ _)

theorem lineStartsB_append_false {p a : String} (b : String)
    (hlen : p.data.length ≤ a.data.length) (h : lineStartsB p a = false) :
    lineStartsB p (a ++ b) = false := by
  rw [lineStartsB] at h ⊢
  rw [data_append]
  apply Bool.eq_false_iff.2
  intro hcon
  rw [List.isPrefixOf_iff_prefix] at hcon
  have h2 := List.prefix_of_prefix_length_le hcon (List.prefix_append _ _) hlen
  rw [Bool.eq_false_iff] at h
  exact h (List.isPrefixOf_iff_prefix.2 h2)

theorem lineStartsB_false_of_head {p l : String} {cp cl : Char} {tp tl : List Char}
    (hp : p.data = cp :: tp) (hl : l.data = cl :: tl) (hne : (cp == cl) = false) :
    lineStartsB p l = false := by
  rw [lineStartsB, hp, hl]
  simp [List.isPrefixOf, hne]

theorem beq_false_of_head {s t : String} {cs ct : Char} {rs rt : List Char}
    (hs : s.data = cs :: rs) (ht : t.data = ct :: rt) (hne : (cs == ct) = false) :
    (s == t) = false := by
  rw [beq_eq_false_iff_ne]
  intro hEq
  rw [hEq, ht] at hs
  cases hs
  simp at hne

theorem data_head_append {s : String} {c : Char} {r : List Char} (t : String)
    (h : s.data = c :: r) : ∃ r2, (s ++ t).data = c :: r2 :=
  ⟨r ++ t.data, by rw [data_append, h]; rfl⟩

theorem commentLine_head (c : Commit) : ∃ r, (commentLine c).data = '#' :: r := by
  rw [commentLine]
  exact data_head_append _ rfl

theorem echoLine_head (c : Commit) : ∃ r, (echoLine c).data = 'e' :: r := by
  rw [echoLine]
  obtain ⟨r0, h0⟩ : ∃ r, ("echo " ++ sqStr).data = 'e' :: r := ⟨_, rfl⟩
  obtain ⟨r1, h1⟩ := data_head_append (pyRstrip (contentLine c)) h0
  obtain ⟨r2, h2⟩ := data_head_append sqStr h1
  exact data_head_append _ h2

theorem exportAuthorLine_head (c : Commit) :
    ∃ r, (exportAuthorLine c).data = 'e' :: r := by
  rw [exportAuthorLine]
  obtain ⟨r0, h0⟩ : ∃ r, ("export GIT_AUTHOR_DATE=" ++ sqStr).data = 'e' :: r := ⟨_, rfl⟩
  obtain ⟨r1, h1⟩ := data_head_append (isoTimestampStr c) h0
  exact data_head_append _ h1

theorem exportCommitterLine_head (c : Commit) :
    ∃ r, (exportCommitterLine c).data = 'e' :: r := by
  rw [exportCommitterLine]
  obtain ⟨r0, h0⟩ : ∃ r, ("export GIT_COMMITTER_DATE=" ++ sqStr).data = 'e' :: r := ⟨_, rfl⟩
  obtain ⟨r1, h1⟩ := data_head_append (isoTimestampStr c) h0
  exact data_head_append _ h1

theorem gitCommitLine_head (c : Commit) : ∃ r, (gitCommitLine c).data = 'g' :: r := by
  rw [gitCommitLine]
  obtain ⟨r0, h0⟩ : ∃ r, ("git commit -m " ++ sqStr).data = 'g' :: r := ⟨_, rfl⟩
  obtain ⟨r1, h1⟩ := data_head_append c.message h0
  exact data_head_append _ h1

theorem fileAssignLine_head (fn : String) :
    ∃ r, (fileAssignLine fn).data = 'F' :: r := by
  rw [fileAssignLine]
  obtain ⟨r0, h0⟩ : ∃ r, ("FILE=\"" : String).data = 'F' :: r := ⟨_, rfl⟩
  obtain ⟨r1, h1⟩ := data_head_append fn h0
  exact data_head_append _ h1

theorem pFILE_fileAssign (fn : String) :
    lineStartsB "FILE=" (fileAssignLine fn) = true := by
  rw [fileAssignLine]
  exact lineStartsB_append_left _ (lineStartsB_append_left _ (by decide))

theorem pFILE_comment (c : Commit) : lineStartsB "FILE=" (commentLine c) = false := by
  obtain ⟨r, h⟩ := commentLine_head c
  exact lineStartsB_false_of_head rfl h (by decide)

theorem pFILE_echo (c : Commit) : lineStartsB "FILE=" (echoLine c) = false := by
  obtain ⟨r, h⟩ := echoLine_head c
  exact lineStartsB_false_of_head rfl h (by decide)

theorem pFILE_exportA (c : Commit) :
    lineStartsB "FILE=" (exportAuthorLine c) = false := by
  obtain ⟨r, h⟩ := exportAuthorLine_head c
  exact lineStartsB_false_of_head rfl h (by decide)

theorem pFILE_exportC (c : Commit) :
    lineStartsB "FILE=" (exportCommitterLine c) = false := by
  obtain ⟨r, h⟩ := exportCommitterLine_head c
  exact lineStartsB_false_of_head rfl h (by decide)

theorem pFILE_gitCommit (c : Commit) :
    lineStartsB "FILE=" (gitCommitLine c) = false := by
  obtain ⟨r, h⟩ := gitCommitLine_head c
  exact lineStartsB_false_of_head rfl h (by decide)

theorem pADD_comment (c : Commit) : lineStartsB "git add" (commentLine c) = false := by
  obtain ⟨r, h⟩ := commentLine_head c
  exact lineStartsB_false_of_head rfl h (by decide)

theorem pADD_echo (c : Commit) : lineStartsB "git add" (echoLine c) = false := by
  obtain ⟨r, h⟩ := echoLine_head c
  exact lineStartsB_false_of_head rfl h (by decide)

theorem pADD_exportA (c : Commit) :
    lineStartsB "git add" (exportAuthorLine c) = false := by
  obtain ⟨r, h⟩ := exportAuthorLine_head c
  exact lineStartsB_false_of_head rfl h (by decide)

theorem pADD_exportC (c : Commit) :
    lineStartsB "git add" (exportCommitterLine c) = false := by
  obtain ⟨r, h⟩ := exportCommitterLine_head c
  exact lineStartsB_false_of_head rfl h (by decide)

theorem pADD_fileAssign (fn : String) :
    lineStartsB "git add" (fileAssignLine fn) = false := by
  obtain ⟨r, h⟩ := fileAssignLine_head fn
  exact lineStartsB_false_of_head rfl h (by decide)

theorem pADD_gitCommitLine (c : Commit) :
    lineStartsB "git add" (gitCommitLine c) = false := by
  rw [gitCommitLine]
  apply lineStartsB_append_false
  · rw [data_append, List.length_append]
    have h15 : (("git commit -m " ++ sqStr)).data.length = 15 := by decide
    have h7 : ("git add" : String).data.length = 7 := by decide
    rw [h15, h7]
    omega
  · exact lineStartsB_append_false _ (by decide) (by decide)

theorem pCOM_comment (c : Commit) :
    lineStartsB "git commit" (commentLine c) = false := by
  obtain ⟨r, h⟩ := commentLine_head c
  exact lineStartsB_false_of_head rfl h (by decide)

theorem pCOM_echo (c : Commit) : lineStartsB "git commit" (echoLine c) = false := by
  obtain ⟨r, h⟩ := echoLine_head c
  exact lineStartsB_false_of_head rfl h (by decide)

theorem pCOM_exportA (c : Commit) :
    lineStartsB "git commit" (exportAuthorLine c) = false := by
  obtain ⟨r, h⟩ := exportAuthorLine_head c
  exact lineStartsB_false_of_head rfl h (by decide)

theorem pCOM_exportC (c : Commit) :
    lineStartsB "git commit" (exportCommitterLine c) = false := by
  obtain ⟨r, h⟩ := exportCommitterLine_head c
  exact lineStartsB_false_of_head rfl h (by decide)

theorem pCOM_fileAssign (fn : String) :
    lineStartsB "git commit" (fileAssignLine fn) = false := by
  obtain ⟨r, h⟩ := fileAssignLine_head fn
  exact lineStartsB_false_of_head rfl h (by decide)

theorem pCOM_gitCommitLine (c : Commit) :
    lineStartsB "git commit" (gitCommitLine c) = true := by
  rw [gitCommitLine]
  exact lineStartsB_append_left _ (lineStartsB_append_left _ (by decide))

theorem touchEq_comment (c : Commit) : (commentLine c == touchLine) = false := by
  obtain ⟨r, h⟩ := commentLine_head c
  exact beq_false_of_head h rfl (by decide)

theorem touchEq_echo (c : Commit) : (echoLine c == touchLine) = false := by
  obtain ⟨r, h⟩ := echoLine_head c
  exact beq_false_of_head h rfl (by decide)

theorem touchEq_exportA (c : Commit) :
    (exportAuthorLine c == touchLine) = false := by
  obtain ⟨r, h⟩ := exportAuthorLine_head c
  exact beq_false_of_head h rfl (by decide)

theorem touchEq_exportC (c : Commit) :
    (exportCommitterLine c == touchLine) = false := by
  obtain ⟨r, h⟩ := exportCommitterLine_head c
  exact beq_false_of_head h rfl (by decide)

theorem touchEq_fileAssign (fn : String) :
    (fileAssignLine fn == touchLine) = false := by
  obtain ⟨r, h⟩ := fileAssignLine_head fn
  exact beq_false_of_head h rfl (by decide)

theorem touchEq_gitCommit (c : Commit) :
    (gitCommitLine c == touchLine) = false := by
  obtain ⟨r, h⟩ := gitCommitLine_head c
  exact beq_false_of_head h rfl (by decide)

theorem headerLines_split (fn : String) :
    headerLines fn =
      ["#!/bin/bash", "# Auto-generated commit script",
       "# Run this in your git repository", "", "set -e", ""] ++
        fileAssignLine fn :: ["", "# Ensure file exists", touchLine, ""] := rfl

theorem header_filter_FILE (fn : String) :
    (headerLines fn).filter (lineStartsB "FILE=") = [fileAssignLine fn] := by
  rw [headerLines_split, List.filter_append]
  rw [show (["#!/bin/bash", "# Auto-generated commit script",
      "# Run this in your git repository", "", "set -e", ""] : List String).filter
      (lineStartsB "FILE=") = [] from by decide]
  rw [List.filter_cons, pFILE_fileAssign fn]
  rw [show (["", "# Ensure file exists", touchLine, ""] : List String).filter
      (lineStartsB "FILE=") = [] from by decide]
  simp

theorem header_filter_touch (fn : String) :
    (headerLines fn).filter (fun l => l == touchLine) = [touchLine] := by
  rw [headerLines_split, List.filter_append]
  rw [show (["#!/bin/bash", "# Auto-generated commit script",
      "# Run this in your git repository", "", "set -e", ""] : List String).filter
      (fun l => l == touchLine) = [] from by decide]
  rw [List.filter_cons, touchEq_fileAssign fn]
  rw [show (["", "# Ensure file exists", touchLine, ""] : List String).filter
      (fun l => l == touchLine) = [touchLine] from by decide]
  simp

theorem header_filter_SC (fn : String) :
    (headerLines fn).filter
      (fun l => lineStartsB "git add" l || lineStartsB "git commit" l) = [] := by
  rw [headerLines_split, List.filter_append]
  rw [show (["#!/bin/bash", "# Auto-generated commit script",
      "# Run this in your git repository", "", "set -e", ""] : List String).filter
      (fun l => lineStartsB "git add" l || lineStartsB "git commit" l) = [] from by decide]
  rw [List.filter_cons, pADD_fileAssign fn, pCOM_fileAssign fn]
  rw [show (["", "# Ensure file exists", touchLine, ""] : List String).filter
      (fun l => lineStartsB "git add" l || lineStartsB "git commit" l) = [] from by decide]
  simp

theorem block_filter_FILE (c : Commit) :
    (commitBlock c).filter (lineStartsB "FILE=") = [] := by
  simp only [commitBlock, List.filter_cons, List.filter_nil, pFILE_comment c,
    pFILE_echo c, pFILE_exportA c, pFILE_exportC c, pFILE_gitCommit c]
  rw [show lineStartsB "FILE=" gitAddLine = false from by decide]
  rw [show lineStartsB "FILE=" "" = false from by decide]
  simp

theorem block_filter_touch (c : Commit) :
    (commitBlock c).filter (fun l => l == touchLine) = [] := by
  simp only [commitBlock, List.filter_cons, List.filter_nil, touchEq_comment c,
    touchEq_echo c, touchEq_exportA c, touchEq_exportC c, touchEq_gitCommit c]
  rw [show (gitAddLine == touchLine) = false from by decide]
  rw [show (("" : String) == touchLine) = false from by decide]
  simp

theorem block_filter_SC (c : Commit) :
    (commitBlock c).filter
        (fun l => lineStartsB "git add" l || lineStartsB "git commit" l) =
      [gitAddLine, gitCommitLine c] := by
  simp only [commitBlock, List.filter_cons, List.filter_nil, pADD_comment c,
    pCOM_comment c, pADD_echo c, pCOM_echo c, pADD_exportA c, pCOM_exportA c,
    pADD_exportC c, pCOM_exportC c, pADD_gitCommitLine c, pCOM_gitCommitLine c]
  rw [show (lineStartsB "git add" gitAddLine || lineStartsB "git commit" gitAddLine) =
    true from by decide]
  rw [show (lineStartsB "git add" "" || lineStartsB "git commit" "") = false from by decide]
  simp

theorem blocks_filter_nil (p : String → Bool)
    (h : ∀ c, (commitBlock c).filter p = []) (commits : List Commit) :
    ((commits.map commitBlock).flatten).filter p = [] := by
  induction commits with
  | nil => rfl
  | cons c cs ih =>
    rw [List.map_cons, List.flatten_cons, List.filter_append, h, ih]
    rfl

theorem blocks_filter_SC (commits : List Commit) :
    ((commits.map commitBlock).flatten).filter
        (fun l => lineStartsB "git add" l || lineStartsB "git commit" l) =
      (commits.map (fun c => [gitAddLine, gitCommitLine c])).flatten := by
  induction commits with
  | nil => rfl
  | cons c cs ih =>
    rw [List.map_cons, List.flatten_cons, List.filter_append, ih, block_filter_SC c,
      List.map_cons, List.flatten_cons]

/-- C9: for every ordered commit list, the emitted script lines assign the
filename variable exactly once, contain the touch existence-check exactly
once, and contain exactly one stage-and-commit pair (git add followed by a
git commit with that record's message) per commit record, in input order. -/
theorem claim_C9 (commits : List Commit) (fn : String) :
    ((scriptLines commits fn).filter (lineStartsB "FILE=")).length = 1 ∧
    ((scriptLines commits fn).filter (fun l => l == touchLine)).length = 1 ∧
    (scriptLines commits fn).filter
        (fun l => lineStartsB "git add" l || lineStartsB "git commit" l) =
      (commits.map (fun c => [gitAddLine, gitCommitLine c])).flatten := by
  refine ⟨?_, ?_, ?_⟩
  · rw [scriptLines, List.filter_append, List.filter_append, header_filter_FILE,
      blocks_filter_nil _ block_filter_FILE,
      show trailerLines.filter (lineStartsB "FILE=") = [] from by decide]
    rfl
  · rw [scriptLines, List.filter_append, List.filter_append, header_filter_touch,
      blocks_filter_nil _ block_filter_touch,
      show trailerLines.filter (fun l => l == touchLine) = [] from by decide]
    rfl
  · rw [scriptLines, List.filter_append, List.filter_append, header_filter_SC,
      blocks_filter_SC,
      show trailerLines.filter
        (fun l => lineStartsB "git add" l || lineStartsB "git commit" l) = []
        from by decide]
    simp

/-- C10 witness: the first commit of a concrete two-commit day has a
quote-free message and exactly two quotes in its echo and commit lines. -/
theorem claim_C10_witness :
    countSq ((generate_commits_for_day 738886 2 twoCommitDayOracle
        "work.log").getD 0 defaultCommit).message = 0 ∧
    countSq (echoLine ((generate_commits_for_day 738886 2 twoCommitDayOracle
        "work.log").getD 0 defaultCommit)) = 2 ∧
    countSq (gitCommitLine ((generate_commits_for_day 738886 2 twoCommitDayOracle
        "work.log").getD 0 defaultCommit)) = 2 :=
  claim_C10 738886 2 twoCommitDayOracle "work.log" _ (by decide)

/-! ### The end-to-end example (C1) -/

theorem pyRandint_const (a r : Nat) : pyRandint a a r = a := by
  have h1 : a + 1 - a = 1 := by omega
  simp [pyRandint, h1, Nat.mod_one]

theorem buildCommits_length (day : Nat) (o : DayOracle) (hs : List Nat) (i : Nat) :
    (buildCommits day o i hs).length = hs.length := by
  have h := congrArg List.length (buildCommits_map_hour day o hs i)
  simpa using h

theorem selectHours_nodup (o : DayOracle) (n : Nat) (hval : o.valid n)
    (hn : n ≤ 9) : (selectHours o n).Nodup := by
  obtain ⟨hnd, hsub, hlen⟩ := hval
  have hwl : work_hours.length = 9 := by decide
  rw [hwl, min_eq_left hn] at hlen
  simp only [selectHours]
  rw [(List.perm_insertionSort (· ≤ ·) _).nodup_iff]
  apply List.Nodup.sublist (List.take_sublist _ _)
  have hslen : (List.insertionSort (· ≤ ·) o.sample).length = n := by
    rw [(List.perm_insertionSort (· ≤ ·) _).length_eq, hlen]
  rw [hslen]
  have hrange : n - n = 0 := by omega
  rw [hrange]
  simp only [List.range_zero, List.map_nil, List.append_nil]
  rw [(List.perm_insertionSort (· ≤ ·) _).nodup_iff]
  exact hnd

theorem sorted_nodup_strict {l : List Nat} (hs : List.Sorted (· ≤ ·) l)
    (hn : l.Nodup) : List.Pairwise (· < ·) l :=
  (hs.and hn).imp (fun h => lt_of_le_of_ne h.1 h.2)

theorem tsKey_lt_of_same_day {a b : Commit} (hd : a.day = b.day)
    (hh : a.hour < b.hour) (hm : a.minute ≤ 59) (hs : a.second ≤ 59) :
    tsKey a < tsKey b := by
  rw [tsKey, tsKey, hd]
  omega

theorem tsKey_lt_of_day_lt {a b : Commit} (hd : a.day < b.day) (hh : a.hour < 18)
    (hm : a.minute ≤ 59) (hs : a.second ≤ 59) : tsKey a < tsKey b := by
  rw [tsKey, tsKey]
  omega

theorem mainCommits_length_two (countR : Nat → Nat) (dayR : Nat → DayOracle)
    (fn : String) (hv : ∀ i, (dayR i).valid 2) :
    ∀ (days : List Nat) (i : Nat),
      (mainCommits 2 2 countR dayR fn i days).length = 2 * days.length := by
  intro days
  induction days with
  | nil => intro i; rfl
  | cons wd rest ih =>
    intro i
    simp only [mainCommits, List.length_append, ih, List.length_cons]
    rw [pyRandint_const, generate_commits_for_day, buildCommits_length,
      selectHours_length _ _ (hv i)]
    omega

theorem mainCommits_chrono (countR : Nat → Nat) (dayR : Nat → DayOracle)
    (fn : String) (hv : ∀ i, (dayR i).valid 2) :
    ∀ (days : List Nat) (i : Nat), List.Sorted (· < ·) days →
      List.Pairwise (fun a b => tsKey a < tsKey b)
        (mainCommits 2 2 countR dayR fn i days) := by
  intro days
  induction days with
  | nil => intro i _; simp [mainCommits]
  | cons wd rest ih =>
    intro i hsort
    rw [List.sorted_cons] at hsort
    simp only [mainCommits]
    rw [List.pairwise_append]
    refine ⟨?_, ih (i + 1) hsort.2, ?_⟩
    · rw [pyRandint_const]
      have hhours : List.Pairwise (· < ·) (selectHours (dayR i) 2) :=
        sorted_nodup_strict (selectHours_sorted _ _)
          (selectHours_nodup _ _ (hv i) (by norm_num))
      have hmap := buildCommits_map_hour wd (dayR i) (selectHours (dayR i) 2) 0
      rw [← hmap] at hhours
      have hcommit := List.pairwise_map.1 hhours
      refine hcommit.imp_of_mem ?_
      intro a b ha hb hab
      have hda := buildCommits_day wd (dayR i) _ 0 a ha
      have hdb := buildCommits_day wd (dayR i) _ 0 b hb
      have hms := buildCommits_minsec wd (dayR i) _ 0 a ha
      exact tsKey_lt_of_same_day (by rw [hda, hdb]) hab hms.1 hms.2
    · intro a ha b hb
      rw [pyRandint_const] at ha
      have hda := buildCommits_day wd (dayR i) _ 0 a ha
      have hdb := mainCommits_day_mem 2 2 countR dayR fn rest (i + 1) b hb
      have hbound := generate_commits_bounds wd 2 (dayR i) fn (hv i).2.1 a ha
      have hms := buildCommits_minsec wd (dayR i) _ 0 a ha
      apply tsKey_lt_of_day_lt
      · rw [hda]
        exact hsort.1 _ hdb
      · exact hbound.2.1
      · exact hms.1
      · exact hms.2

/-- C1 counterexample: with --start-date 2024-01-01 --end-date 2024-01-05
(both inclusive after the end-date adjustment) all five days Mon-Fri are
workdays, so a run with --vacation-days 0 and exactly 2 commits per day has
5 active workdays and 10 commits, not 4 and 8 as claimed. -/
theorem claim_C1_counterexample :
    exampleRangeWorkdays.length = 5 ∧
    vacationStep 0 (fun _ => []) exampleRangeWorkdays = some exampleRangeWorkdays ∧
    (mainCommits 2 2 (fun _ => 0) (fun _ => twoCommitDayOracle) "work.log" 0
      exampleRangeWorkdays).length = 10 ∧
    (5 : Nat) ≠ 4 ∧ (10 : Nat) ≠ 8 :=
  ⟨by decide, by decide, by decide, by decide, by decide⟩

/-- C1 amended: the run with --start-date 2024-01-01 --end-date 2024-01-05
--min-commits 2 --max-commits 2 --vacation-days 0 yields exactly 5 active
workdays, each with exactly 2 commits, totaling 10 commits, and the emitted
script contains exactly 10 stage-and-commit blocks (one git add + git commit
pair per commit, in list order) with strictly increasing timestamps. -/
theorem claim_C1_amended (orc : Nat → List Nat) (countR : Nat → Nat)
    (dayR : Nat → DayOracle) (fn : String) (hv : ∀ i, (dayR i).valid 2) :
    vacationStep 0 orc exampleRangeWorkdays = some exampleRangeWorkdays ∧
    exampleRangeWorkdays.length = 5 ∧
    (∀ wd i, (generate_commits_for_day wd (pyRandint 2 2 (countR i)) (dayR i)
      fn).length = 2) ∧
    (mainCommits 2 2 countR dayR fn 0 exampleRangeWorkdays).length = 10 ∧
    (scriptLines (mainCommits 2 2 countR dayR fn 0 exampleRangeWorkdays) fn).filter
        (fun l => lineStartsB "git add" l || lineStartsB "git commit" l) =
      ((mainCommits 2 2 countR dayR fn 0 exampleRangeWorkdays).map
        (fun c => [gitAddLine, gitCommitLine c])).flatten ∧
    List.Pairwise (fun a b => tsKey a < tsKey b)
      (mainCommits 2 2 countR dayR fn 0 exampleRangeWorkdays) := by
  refine ⟨vacationStep_zero _ _, by decide, ?_, ?_, ?_, ?_⟩
  · intro wd i
    rw [pyRandint_const, generate_commits_for_day, buildCommits_length,
      selectHours_length _ _ (hv i)]
  · rw [mainCommits_length_two countR dayR fn hv exampleRangeWorkdays 0]
    decide
  · rw [scriptLines, List.filter_append, List.filter_append, header_filter_SC,
      blocks_filter_SC,
      show trailerLines.filter
        (fun l => lineStartsB "git add" l || lineStartsB "git commit" l) = []
        from by decide]
    simp
  · exact mainCommits_chrono countR dayR fn hv exampleRangeWorkdays 0
      (collectWorkdays_sorted _ _)

/-- C1 amended witness: the example run at concrete oracles. -/
theorem claim_C1_amended_witness :
    vacationStep 0 (fun _ : Nat => ([] : List Nat)) exampleRangeWorkdays =
      some exampleRangeWorkdays ∧
    exampleRangeWorkdays.length = 5 ∧
    (∀ wd i, (generate_commits_for_day wd (pyRandint 2 2 ((fun _ : Nat => 0) i))
      ((fun _ : Nat => twoCommitDayOracle) i) "work.log").length = 2) ∧
    (mainCommits 2 2 (fun _ : Nat => 0) (fun _ : Nat => twoCommitDayOracle)
      "work.log" 0 exampleRangeWorkdays).length = 10 ∧
    (scriptLines (mainCommits 2 2 (fun _ : Nat => 0)
        (fun _ : Nat => twoCommitDayOracle) "work.log" 0 exampleRangeWorkdays)
        "work.log").filter
        (fun l => lineStartsB "git add" l || lineStartsB "git commit" l) =
      ((mainCommits 2 2 (fun _ : Nat => 0) (fun _ : Nat => twoCommitDayOracle)
        "work.log" 0 exampleRangeWorkdays).map
        (fun c => [gitAddLine, gitCommitLine c])).flatten ∧
    List.Pairwise (fun a b => tsKey a < tsKey b)
      (mainCommits 2 2 (fun _ : Nat => 0) (fun _ : Nat => twoCommitDayOracle)
        "work.log" 0 exampleRangeWorkdays) :=
  claim_C1_amended (fun _ => []) (fun _ => 0) (fun _ => twoCommitDayOracle)
    "work.log" (by
      intro i
      show DayOracle.valid twoCommitDayOracle 2
      exact ⟨by decide, by decide, by decide⟩)

end WorkdayCommits
